import Mathlib

/-!
Verification of the tile-mosaic reconstruction core of
`scripts/prepare_data.py` (pedestrian-viz).

The script is straight-line Python; we embed its core computations as
executable Lean definitions:

* `GridSizeResolver.resolve` — grid-size inference (lines 123-128);
* `TileIndexMapper.map` — linear index → transposed destination cell
  (lines 141-152);
* `MosaicAssembler.assemble` — canvas allocation, per-tile parsing,
  placement and counting (lines 131-163);
* `BoundsAggregator.aggregate` and the fallback bounds (lines 192-225);
* the metadata `years` computation (lines 228-239).

Python strings are modelled as `List Char`, Python `int` as `Int`
(with `//` = `Int.fdiv` and `%` = `Int.fmod`, which agree with Python's
floor division and sign-of-divisor modulus), and float extents as `ℚ`.
-/

/-- An RGB pixel value, as in the `'RGB'` mode canvas of line 131. -/
structure RGB where
  r : Nat
  g : Nat
  b : Nat
deriving DecidableEq, Repr

/-- The black background fill `color=(0, 0, 0)` of line 131. -/
def blackRGB : RGB := ⟨0, 0, 0⟩

/-- A raster image: width, height, and a pixel function. -/
structure TileImage where
  width : Nat
  height : Nat
  pix : Int → Int → RGB

/-- The mutable canvas of the stitching loop: a raster image. -/
structure Canvas where
  width : Nat
  height : Nat
  pix : Int → Int → RGB

/-- `canvas.paste(img, (x0, y0))` (line 156): overwrite the rectangle of
`img`'s size at offset `(x0, y0)`, clipped to the canvas extent, with no
blending. -/
def Canvas.paste (c : Canvas) (img : TileImage) (x0 y0 : Int) : Canvas :=
  { c with
    pix := fun x y =>
      if 0 ≤ x ∧ x < (c.width : Int) ∧ 0 ≤ y ∧ y < (c.height : Int) ∧
         x0 ≤ x ∧ x < x0 + (img.width : Int) ∧
         y0 ≤ y ∧ y < y0 + (img.height : Int) then
        img.pix (x - x0) (y - y0)
      else c.pix x y }

/-- A tile file: the filename stem (`tile_path.stem`, a Python string,
modelled as a list of characters) and the image data it decodes to. -/
structure Tile where
  stem : List Char
  image : TileImage

/-- Python's `str.split('_')` on a string modelled as `List Char`:
`"" ↦ [""]`, separators at the ends yield empty parts. -/
def splitOnUnderscore : List Char → List (List Char)
  | [] => [[]]
  | c :: rest =>
    let r := splitOnUnderscore rest
    if c = '_' then [] :: r
    else
      match r with
      | [] => [[c]]
      | p :: ps => (c :: p) :: ps

/-- Decimal digits to a number, `none` if empty or a non-digit occurs. -/
def decDigits : List Char → Option Nat
  | [] => none
  | cs =>
    if cs.all Char.isDigit then
      some (cs.foldl (fun n c => 10 * n + (c.toNat - 48)) 0)
    else none

/-- Python's `int(s)` on the identifier segment (line 139), modelled for
strings that are an optional sign followed by decimal digits; any other
string is not an integer literal and yields `none` (Python raises
`ValueError` there). -/
def pythonInt : List Char → Option Int
  | '-' :: rest => (decDigits rest).map (fun n => -(n : Int))
  | '+' :: rest => (decDigits rest).map (fun n => (n : Int))
  | cs => (decDigits cs).map (fun n => (n : Int))

namespace GridSizeResolver

/-- Lines 123-128: `grid_size = int(num_tiles ** 0.5)` (the integer
square root, modelled exactly as `Nat.sqrt`); if its square is not the
tile count, fall back to the fixed default `4`. -/
def resolve (num_tiles : Nat) : Nat :=
  let grid_size := Nat.sqrt num_tiles
  if grid_size * grid_size ≠ num_tiles then 4 else grid_size

end GridSizeResolver

namespace TileIndexMapper

/-- Lines 141-152: source cell by row-major decomposition with Python's
floor division and modulus, destination cell by transposition, and the
upper-bounds check that rejects the tile (`continue`) when a destination
coordinate reaches the grid size. -/
def map (tile_id : Int) (grid_size : Int) : Option (Int × Int) :=
  let source_row := tile_id.fdiv grid_size
  let source_col := tile_id.fmod grid_size
  let canvas_row := source_col
  let canvas_col := source_row
  if canvas_row ≥ grid_size ∨ canvas_col ≥ grid_size then none
  else some (canvas_row, canvas_col)

end TileIndexMapper

namespace MosaicAssembler

/-- Line 131: `Image.new('RGB', (tile_size*grid_size, tile_size*grid_size),
color=(0,0,0))`. -/
def blankCanvas (tile_size grid_size : Nat) : Canvas :=
  { width := tile_size * grid_size
    height := tile_size * grid_size
    pix := fun _ _ => blackRGB }

/-- The identifier-to-destination pipeline for one tile (lines 136-152):
split the stem on `'_'`; fewer than three parts, an unparseable third
part, or an out-of-bounds index give no destination. (Used to state
which tiles end up placed.) -/
def placedDest (grid_size : Nat) (t : Tile) : Option (Int × Int) :=
  let parts := splitOnUnderscore t.stem
  if 3 ≤ parts.length then
    match pythonInt (parts.getD 2 []) with
    | none => none
    | some tile_id => TileIndexMapper.map tile_id grid_size
  else none

/-- One iteration of the stitching loop (lines 135-157) on the state
`(canvas, tiles_placed)`: skip stems with fewer than three
underscore-delimited parts; `int(parts[2])` on a non-literal raises
(`Except.error`); an out-of-bounds destination is skipped; otherwise
paste the tile at `(canvas_col * tile_size, canvas_row * tile_size)` and
increment `tiles_placed`. -/
def placeTile (tile_size grid_size : Nat) (c : Canvas) (tiles_placed : Nat)
    (t : Tile) : Except String (Canvas × Nat) :=
  let parts := splitOnUnderscore t.stem
  if 3 ≤ parts.length then
    match pythonInt (parts.getD 2 []) with
    | none => .error "ValueError: invalid literal for int"
    | some tile_id =>
      match TileIndexMapper.map tile_id grid_size with
      | none => .ok (c, tiles_placed)
      | some (canvas_row, canvas_col) =>
        .ok (c.paste t.image (canvas_col * (tile_size : Int))
               (canvas_row * (tile_size : Int)),
             tiles_placed + 1)
  else .ok (c, tiles_placed)

/-- The stitching loop over the tile list. -/
def go (tile_size grid_size : Nat) :
    List Tile → Canvas → Nat → Except String (Canvas × Nat)
  | [], c, tiles_placed => .ok (c, tiles_placed)
  | t :: rest, c, tiles_placed =>
    match placeTile tile_size grid_size c tiles_placed t with
    | .error e => .error e
    | .ok (c', placed') => go tile_size grid_size rest c' placed'

/-- Lines 131-163: allocate the blank canvas, run the loop, and report
the canvas together with `tiles_placed` and the total tile count. An
uncaught per-tile exception aborts the whole assembly. -/
def assemble (tiles : List Tile) (grid_size tile_size : Nat) :
    Except String (Canvas × Nat × Nat) :=
  match go tile_size grid_size tiles (blankCanvas tile_size grid_size) 0 with
  | .error e => .error e
  | .ok (c, tiles_placed) => .ok (c, tiles_placed, tiles.length)

/-- Lines 104-173: the per-year imagery substep writes the stitched
image only if no exception escaped the stitching `try` block; an
exception is caught at the substep boundary and the year's imagery
output is omitted. -/
def imageryOutput (tiles : List Tile) (grid_size tile_size : Nat) :
    Option Canvas :=
  match assemble tiles grid_size tile_size with
  | .ok (c, _, _) => some c
  | .error _ => none

end MosaicAssembler

/-- A geographic bounding box `{west, south, east, north}`; the float
extents are modelled as exact rationals. -/
structure BoundingBox where
  west : ℚ
  south : ℚ
  east : ℚ
  north : ℚ
deriving DecidableEq, Repr

namespace BoundsAggregator

/-- Lines 192-200: componentwise column reduction of the collected
bounds array — min of wests, min of souths, max of easts, max of
norths. Empty input has no reduction (`none`). -/
def aggregate : List BoundingBox → Option BoundingBox
  | [] => none
  | b :: rest =>
    some
      { west := rest.foldl (fun acc x => min acc x.west) b.west
        south := rest.foldl (fun acc x => min acc x.south) b.south
        east := rest.foldl (fun acc x => max acc x.east) b.east
        north := rest.foldl (fun acc x => max acc x.north) b.north }

end BoundsAggregator

/-- Lines 202-225: the statically configured fallback box chosen by the
area name when no GeoJSON bounds were collected. -/
def fallbackBounds (area_name : String) : BoundingBox :=
  if area_name = "east_harlem" then
    ⟨-73.979239, 40.777385, -73.970209, 40.784245⟩
  else if area_name = "hudson_yards" then
    ⟨-74.003421, 40.750033, -73.997934, 40.755121⟩
  else
    ⟨-74.01, 40.70, -73.97, 40.76⟩

/-- Lines 192-225: overall bounds for the metadata — the aggregation of
the collected per-year bounds when any exist, the static fallback
otherwise. -/
def overallBounds (bounds_list : List BoundingBox) (area_name : String) :
    BoundingBox :=
  match BoundsAggregator.aggregate bounds_list with
  | some bb => bb
  | none => fallbackBounds area_name

/-- Line 24: the configured year list. -/
def YEARS : List Nat :=
  [2024, 2022, 2020, 2018, 2016, 2014, 2012, 2010, 2008, 2006, 2004]

/-- Lines 228-233: the years that actually have data, given the
existence oracles for the two per-year output artifacts. -/
def availableYears (hasGeojson hasImagery : Nat → Bool) : List Nat :=
  YEARS.filter (fun y => hasGeojson y || hasImagery y)

/-- Line 239: `sorted(available_years, reverse=True)` — the `years`
field of the metadata, sorted descending. -/
def metadataYears (hasGeojson hasImagery : Nat → Bool) : List Nat :=
  List.insertionSort (· ≥ ·) (availableYears hasGeojson hasImagery)

/-! ### Helper lemmas -/

/-- Python floor division agrees with `Nat` division on non-negative
operands. -/
lemma fdiv_natCast (a b : Nat) : (a : Int).fdiv (b : Int) = ((a / b : Nat) : Int) := by
  cases a with
  | zero => simp [Int.fdiv]
  | succ n => rfl

/-- Python modulus agrees with `Nat` modulus on non-negative operands. -/
lemma fmod_natCast (a b : Nat) : (a : Int).fmod (b : Int) = ((a % b : Nat) : Int) := by
  cases a with
  | zero => simp [Int.fmod]
  | succ n => rfl

/-- `TileIndexMapper.map` on non-negative inputs, phrased over `Nat`
division and modulus. -/
lemma tileMap_natCast (i g : Nat) :
    TileIndexMapper.map (i : Int) (g : Int) =
      if g ≤ i % g ∨ g ≤ i / g then none
      else some (((i % g : Nat) : Int), ((i / g : Nat) : Int)) := by
  unfold TileIndexMapper.map
  rw [fdiv_natCast, fmod_natCast]
  simp only [ge_iff_le, Nat.cast_le]

/-! ### Claims -/

/-- C2: for every non-negative tile count `n`, if `n` is a perfect
square then `GridSizeResolver.resolve n` is the integer square root of
`n`; for every `n > 0` that is not a perfect square, `resolve n = 4`. -/
theorem c2_grid_size_resolution (n : Nat) :
    (∀ k : Nat, n = k * k → GridSizeResolver.resolve n = Nat.sqrt n) ∧
    (0 < n → (¬ ∃ k : Nat, n = k * k) → GridSizeResolver.resolve n = 4) := by
  constructor
  · rintro k rfl
    have hsq : Nat.sqrt (k * k) = k := Nat.sqrt_eq k
    simp [GridSizeResolver.resolve, hsq]
  · intro _ hns
    have h : Nat.sqrt n * Nat.sqrt n ≠ n := fun h => hns ⟨Nat.sqrt n, h.symm⟩
    simp [GridSizeResolver.resolve, h]

/-- Witness for C2 at `n = 9` (perfect square) and `n = 10` (not a
perfect square). -/
theorem c2_grid_size_resolution_witness :
    GridSizeResolver.resolve 9 = Nat.sqrt 9 ∧ GridSizeResolver.resolve 10 = 4 :=
  ⟨(c2_grid_size_resolution 9).1 3 (by decide),
   (c2_grid_size_resolution 10).2 (by decide)
     (fun ⟨k, hk⟩ => Nat.not_exists_sq (m := 3) (by decide) (by decide) ⟨k, hk.symm⟩)⟩

/-- C3: for every `grid_size ≥ 1` and `tile_index` in
`[0, grid_size²)`, `TileIndexMapper.map` succeeds, both destination
coordinates lie in `[0, grid_size)`, and swapping the destination back
recovers the row-major source cell `(tile_index / grid_size,
tile_index % grid_size)`. -/
theorem c3_map_round_trip (grid_size tile_index : Nat)
    (hg : 1 ≤ grid_size) (hi : tile_index < grid_size * grid_size) :
    ∃ dest : Int × Int,
      TileIndexMapper.map (tile_index : Int) (grid_size : Int) = some dest ∧
      0 ≤ dest.1 ∧ dest.1 < (grid_size : Int) ∧
      0 ≤ dest.2 ∧ dest.2 < (grid_size : Int) ∧
      (dest.2, dest.1) =
        (((tile_index / grid_size : Nat) : Int),
         ((tile_index % grid_size : Nat) : Int)) := by
  have hmod : tile_index % grid_size < grid_size := Nat.mod_lt _ (by omega)
  have hdiv : tile_index / grid_size < grid_size :=
    (Nat.div_lt_iff_lt_mul (by omega)).mpr hi
  refine ⟨(((tile_index % grid_size : Nat) : Int),
           ((tile_index / grid_size : Nat) : Int)), ?_, ?_, ?_, ?_, ?_, rfl⟩
  · rw [tileMap_natCast, if_neg (by omega)]
  · exact Int.natCast_nonneg _
  · show ((tile_index % grid_size : Nat) : Int) < (grid_size : Int)
    exact_mod_cast hmod
  · exact Int.natCast_nonneg _
  · show ((tile_index / grid_size : Nat) : Int) < (grid_size : Int)
    exact_mod_cast hdiv

/-- Witness for C3 at `grid_size = 4`, `tile_index = 7`. -/
theorem c3_map_round_trip_witness :
    ∃ dest : Int × Int,
      TileIndexMapper.map ((7 : Nat) : Int) ((4 : Nat) : Int) = some dest ∧
      0 ≤ dest.1 ∧ dest.1 < ((4 : Nat) : Int) ∧
      0 ≤ dest.2 ∧ dest.2 < ((4 : Nat) : Int) ∧
      (dest.2, dest.1) = (((7 / 4 : Nat) : Int), ((7 % 4 : Nat) : Int)) :=
  c3_map_round_trip 4 7 (by decide) (by decide)

/-- C4: for `tile_index ≥ grid_size²` the mapping fails (a destination
coordinate reaches `grid_size`), and the stitching loop skips the tile
— the canvas and the placed counter are unchanged and no error is
raised. -/
theorem c4_out_of_range_dropped (grid_size tile_index tile_size : Nat)
    (t : Tile) (cv : Canvas) (tiles_placed : Nat)
    (hg : 1 ≤ grid_size) (hi : grid_size * grid_size ≤ tile_index)
    (hparts : 3 ≤ (splitOnUnderscore t.stem).length)
    (hid : pythonInt ((splitOnUnderscore t.stem).getD 2 []) =
      some (tile_index : Int)) :
    TileIndexMapper.map (tile_index : Int) (grid_size : Int) = none ∧
    MosaicAssembler.placeTile tile_size grid_size cv tiles_placed t =
      .ok (cv, tiles_placed) := by
  have hdiv : grid_size ≤ tile_index / grid_size :=
    (Nat.le_div_iff_mul_le (by omega)).mpr hi
  have hmap : TileIndexMapper.map (tile_index : Int) (grid_size : Int) = none := by
    rw [tileMap_natCast, if_pos (Or.inr hdiv)]
  refine ⟨hmap, ?_⟩
  simp only [MosaicAssembler.placeTile, if_pos hparts, hid, hmap]

/-- Witness for C4 at `grid_size = 4`, `tile_index = 17`, a tile named
`a_b_17`. -/
theorem c4_out_of_range_dropped_witness :
    TileIndexMapper.map ((17 : Nat) : Int) ((4 : Nat) : Int) = none ∧
    MosaicAssembler.placeTile 256 4
      (MosaicAssembler.blankCanvas 256 4) 0
      ⟨['a', '_', 'b', '_', '1', '7'], ⟨256, 256, fun _ _ => blackRGB⟩⟩ =
      .ok (MosaicAssembler.blankCanvas 256 4, 0) :=
  c4_out_of_range_dropped 4 17 256
    ⟨['a', '_', 'b', '_', '1', '7'], ⟨256, 256, fun _ _ => blackRGB⟩⟩
    (MosaicAssembler.blankCanvas 256 4) 0
    (by decide) (by decide) (by decide) (by decide)

/-- C1: for a tile of parseable linear index within the grid, the
destination cell is the transpose of the row-major source cell
(`dest_row = tile_index % grid_size`, `dest_col = tile_index /
grid_size`), the tile is pasted at pixel offset `(dest_col * tile_size,
dest_row * tile_size)`, the canvas is a square of side `tile_size *
grid_size`; with 16 tiles of side 256 and grid 4 the canvas is
1024×1024, index 5 maps to destination `(1, 1)` and index 2 to
`(2, 0)`. -/
theorem c1_transpose_and_offset (tile_index grid_size tile_size : Nat)
    (t : Tile) (cv : Canvas) (tiles_placed : Nat)
    (hg : 1 ≤ grid_size) (hi : tile_index < grid_size * grid_size)
    (hparts : 3 ≤ (splitOnUnderscore t.stem).length)
    (hid : pythonInt ((splitOnUnderscore t.stem).getD 2 []) =
      some (tile_index : Int)) :
    TileIndexMapper.map (tile_index : Int) (grid_size : Int) =
      some (((tile_index % grid_size : Nat) : Int),
            ((tile_index / grid_size : Nat) : Int)) ∧
    MosaicAssembler.placeTile tile_size grid_size cv tiles_placed t =
      .ok (cv.paste t.image
             ((tile_index / grid_size * tile_size : Nat) : Int)
             ((tile_index % grid_size * tile_size : Nat) : Int),
           tiles_placed + 1) ∧
    (MosaicAssembler.blankCanvas tile_size grid_size).width =
      tile_size * grid_size ∧
    (MosaicAssembler.blankCanvas tile_size grid_size).height =
      tile_size * grid_size ∧
    (MosaicAssembler.blankCanvas 256 4).width = 1024 ∧
    (MosaicAssembler.blankCanvas 256 4).height = 1024 ∧
    TileIndexMapper.map 5 4 = some (1, 1) ∧
    TileIndexMapper.map 2 4 = some (2, 0) := by
  have hmod : tile_index % grid_size < grid_size := Nat.mod_lt _ (by omega)
  have hdiv : tile_index / grid_size < grid_size :=
    (Nat.div_lt_iff_lt_mul (by omega)).mpr hi
  have hmap : TileIndexMapper.map (tile_index : Int) (grid_size : Int) =
      some (((tile_index % grid_size : Nat) : Int),
            ((tile_index / grid_size : Nat) : Int)) := by
    rw [tileMap_natCast, if_neg (by omega)]
  refine ⟨hmap, ?_, rfl, rfl, by decide, by decide, by decide, by decide⟩
  simp only [MosaicAssembler.placeTile, if_pos hparts, hid, hmap]
  rfl

/-- Witness for C1: grid 4, tile side 256, a tile named `tile_layer_5`
pasted on the blank 1024×1024 canvas. -/
theorem c1_transpose_and_offset_witness :
    TileIndexMapper.map ((5 : Nat) : Int) ((4 : Nat) : Int) =
      some (((5 % 4 : Nat) : Int), ((5 / 4 : Nat) : Int)) ∧
    MosaicAssembler.placeTile 256 4 (MosaicAssembler.blankCanvas 256 4) 0
      ⟨['t', 'i', 'l', 'e', '_', 'l', 'a', 'y', 'e', 'r', '_', '5'],
       ⟨256, 256, fun _ _ => ⟨7, 7, 7⟩⟩⟩ =
      .ok ((MosaicAssembler.blankCanvas 256 4).paste
             ⟨256, 256, fun _ _ => ⟨7, 7, 7⟩⟩
             ((5 / 4 * 256 : Nat) : Int) ((5 % 4 * 256 : Nat) : Int), 0 + 1) ∧
    (MosaicAssembler.blankCanvas 256 4).width = 256 * 4 ∧
    (MosaicAssembler.blankCanvas 256 4).height = 256 * 4 ∧
    (MosaicAssembler.blankCanvas 256 4).width = 1024 ∧
    (MosaicAssembler.blankCanvas 256 4).height = 1024 ∧
    TileIndexMapper.map 5 4 = some (1, 1) ∧
    TileIndexMapper.map 2 4 = some (2, 0) := by
  have h := c1_transpose_and_offset 5 4 256
    ⟨['t', 'i', 'l', 'e', '_', 'l', 'a', 'y', 'e', 'r', '_', '5'],
     ⟨256, 256, fun _ _ => ⟨7, 7, 7⟩⟩⟩
    (MosaicAssembler.blankCanvas 256 4) 0
    (by decide) (by decide) (by decide) (by decide)
  exact h

/-- C6: on every non-empty input, `BoundsAggregator.aggregate` returns
the componentwise reduction — the minimum of all wests and souths and
the maximum of all easts and norths — with no validation of the input
boxes; in particular
`aggregate [{0,0,1,1}, {-1,-1,0.5,0.5}] = {-1,-1,1,1}`. -/
theorem c6_bounds_componentwise (l : List BoundingBox) (hne : l ≠ []) :
    (∃ bb, BoundsAggregator.aggregate l = some bb ∧
      (l.map BoundingBox.west).min? = some bb.west ∧
      (l.map BoundingBox.south).min? = some bb.south ∧
      (l.map BoundingBox.east).max? = some bb.east ∧
      (l.map BoundingBox.north).max? = some bb.north) ∧
    BoundsAggregator.aggregate [⟨0, 0, 1, 1⟩, ⟨-1, -1, 1/2, 1/2⟩] =
      some ⟨-1, -1, 1, 1⟩ := by
  constructor
  · match l with
    | [] => exact absurd rfl hne
    | b :: rest =>
      refine ⟨_, rfl, ?_, ?_, ?_, ?_⟩ <;>
        simp only [List.map_cons, List.min?_cons', List.max?_cons',
          List.foldl_map]
  · simp only [BoundsAggregator.aggregate, List.foldl]
    norm_num

/-- Witness for C6 on the two-box list from the spec's example. -/
theorem c6_bounds_componentwise_witness :
    (∃ bb, BoundsAggregator.aggregate
        [⟨0, 0, 1, 1⟩, ⟨-1, -1, 1/2, 1/2⟩] = some bb ∧
      (([⟨0, 0, 1, 1⟩, ⟨-1, -1, 1/2, 1/2⟩] : List BoundingBox).map
        BoundingBox.west).min? = some bb.west ∧
      (([⟨0, 0, 1, 1⟩, ⟨-1, -1, 1/2, 1/2⟩] : List BoundingBox).map
        BoundingBox.south).min? = some bb.south ∧
      (([⟨0, 0, 1, 1⟩, ⟨-1, -1, 1/2, 1/2⟩] : List BoundingBox).map
        BoundingBox.east).max? = some bb.east ∧
      (([⟨0, 0, 1, 1⟩, ⟨-1, -1, 1/2, 1/2⟩] : List BoundingBox).map
        BoundingBox.north).max? = some bb.north) ∧
    BoundsAggregator.aggregate [⟨0, 0, 1, 1⟩, ⟨-1, -1, 1/2, 1/2⟩] =
      some ⟨-1, -1, 1, 1⟩ :=
  c6_bounds_componentwise [⟨0, 0, 1, 1⟩, ⟨-1, -1, 1/2, 1/2⟩]
    (List.cons_ne_nil _ _)

/-- C7: with no contributed bounding boxes the overall bounds are the
statically configured fallback box chosen by the region name — one
fixed box for `east_harlem`, one for `hudson_yards`, and the generic
NYC box for any other name — never inferred from data. -/
theorem c7_static_fallback :
    (∀ area_name, overallBounds [] area_name = fallbackBounds area_name) ∧
    fallbackBounds "east_harlem" =
      ⟨-73.979239, 40.777385, -73.970209, 40.784245⟩ ∧
    fallbackBounds "hudson_yards" =
      ⟨-74.003421, 40.750033, -73.997934, 40.755121⟩ ∧
    ∀ area_name, area_name ≠ "east_harlem" → area_name ≠ "hudson_yards" →
      fallbackBounds area_name = ⟨-74.01, 40.70, -73.97, 40.76⟩ := by
  refine ⟨fun _ => rfl, rfl, rfl, fun area_name h1 h2 => ?_⟩
  unfold fallbackBounds
  rw [if_neg h1, if_neg h2]

/-- Witness for C7 at an unconfigured region name. -/
theorem c7_static_fallback_witness :
    overallBounds [] "midtown" = fallbackBounds "midtown" ∧
    fallbackBounds "midtown" = ⟨-74.01, 40.70, -73.97, 40.76⟩ :=
  ⟨c7_static_fallback.1 "midtown",
   c7_static_fallback.2.2.2 "midtown" (by decide) (by decide)⟩

/-- C8: the metadata `years` field is sorted in descending order and
contains exactly the processed years for which at least one output
artifact (vector layer or imagery) exists. -/
theorem c8_metadata_years (hasGeojson hasImagery : Nat → Bool) :
    List.Sorted (· ≥ ·) (metadataYears hasGeojson hasImagery) ∧
    ∀ y, y ∈ metadataYears hasGeojson hasImagery ↔
      (y ∈ YEARS ∧ (hasGeojson y || hasImagery y) = true) := by
  constructor
  · exact List.sorted_insertionSort _ _
  · intro y
    rw [metadataYears, List.mem_insertionSort, availableYears, List.mem_filter]

/-- Each loop iteration increments the placed counter by at most one. -/
lemma placeTile_le (tile_size grid_size : Nat) (cv : Canvas) (p : Nat)
    (t : Tile) (cv' : Canvas) (p' : Nat)
    (h : MosaicAssembler.placeTile tile_size grid_size cv p t = .ok (cv', p')) :
    p' ≤ p + 1 := by
  simp only [MosaicAssembler.placeTile] at h
  split at h
  · split at h
    · simp at h
    · split at h
      · obtain ⟨-, h2⟩ := Prod.mk.injEq .. ▸ (Except.ok.inj h)
        omega
      · obtain ⟨-, h2⟩ := Prod.mk.injEq .. ▸ (Except.ok.inj h)
        omega
  · obtain ⟨-, h2⟩ := Prod.mk.injEq .. ▸ (Except.ok.inj h)
    omega

/-- The stitching loop increments the placed counter by at most the
number of tiles it consumes. -/
lemma go_le (tile_size grid_size : Nat) :
    ∀ (l : List Tile) (cv : Canvas) (p : Nat) (cv' : Canvas) (p' : Nat),
      MosaicAssembler.go tile_size grid_size l cv p = .ok (cv', p') →
      p' ≤ p + l.length
  | [], cv, p, cv', p', h => by
    obtain ⟨-, h2⟩ := Prod.mk.injEq .. ▸ (Except.ok.inj h)
    simp only [List.length_nil]
    omega
  | t :: rest, cv, p, cv', p', h => by
    rcases hres : MosaicAssembler.placeTile tile_size grid_size cv p t with e | ⟨c₂, p₂⟩
    · rw [MosaicAssembler.go, hres] at h
      exact absurd h (by simp)
    · simp only [MosaicAssembler.go, hres] at h
      have h1 : p₂ ≤ p + 1 :=
        placeTile_le tile_size grid_size cv p t c₂ p₂ hres
      have h2 := go_le tile_size grid_size rest c₂ p₂ cv' p' h
      simp only [List.length_cons]
      omega

/-- C9: whenever `assemble` returns, the placed count is at most the
total count of discovered tiles — each discovered tile increments the
counter at most once. -/
theorem c9_placed_le_total (tiles : List Tile) (grid_size tile_size : Nat) :
    match MosaicAssembler.assemble tiles grid_size tile_size with
    | .ok (_, tiles_placed, total) => tiles_placed ≤ total
    | .error _ => True := by
  unfold MosaicAssembler.assemble
  rcases hgo : MosaicAssembler.go tile_size grid_size tiles
      (MosaicAssembler.blankCanvas tile_size grid_size) 0 with e | ⟨c₂, p₂⟩
  · simp only [hgo]
  · simp only [hgo]
    have := go_le tile_size grid_size tiles
      (MosaicAssembler.blankCanvas tile_size grid_size) 0 c₂ p₂ hgo
    simpa using this

/-- A well-formed identifier whose third segment is not an integer
literal makes the loop iteration raise. -/
lemma placeTile_raises (tile_size grid_size : Nat) (t : Tile)
    (hparts : 3 ≤ (splitOnUnderscore t.stem).length)
    (hbad : pythonInt ((splitOnUnderscore t.stem).getD 2 []) = none)
    (cv : Canvas) (p : Nat) :
    MosaicAssembler.placeTile tile_size grid_size cv p t =
      .error "ValueError: invalid literal for int" := by
  simp only [MosaicAssembler.placeTile, if_pos hparts, hbad]

/-- If some tile in the list raises, the whole stitching loop raises. -/
lemma go_raises_of_mem (tile_size grid_size : Nat) (t : Tile)
    (hparts : 3 ≤ (splitOnUnderscore t.stem).length)
    (hbad : pythonInt ((splitOnUnderscore t.stem).getD 2 []) = none) :
    ∀ (l : List Tile), t ∈ l → ∀ (cv : Canvas) (p : Nat),
      ∃ e, MosaicAssembler.go tile_size grid_size l cv p = .error e
  | [], hmem, _, _ => absurd hmem (List.not_mem_nil t)
  | t' :: rest, hmem, cv, p => by
    rcases hres : MosaicAssembler.placeTile tile_size grid_size cv p t' with
      e | ⟨c₂, p₂⟩
    · exact ⟨e, by simp only [MosaicAssembler.go, hres]⟩
    · have ht' : t ≠ t' := by
        intro heq
        subst heq
        rw [placeTile_raises tile_size grid_size t hparts hbad cv p] at hres
        exact absurd hres (by simp)
      have hmem' : t ∈ rest := by
        rcases List.mem_cons.mp hmem with h | h
        · exact absurd h ht'
        · exact h
      obtain ⟨e, he⟩ :=
        go_raises_of_mem tile_size grid_size t hparts hbad rest hmem' c₂ p₂
      exact ⟨e, by simp only [MosaicAssembler.go, hres]; exact he⟩

/-- C10: a tile whose identifier has at least three underscore-delimited
parts but whose third segment is not a base-10 integer literal makes
`assemble` raise (instead of skipping the tile), and the year's imagery
output is aborted at the substep boundary. -/
theorem c10_unparseable_index_raises (tiles : List Tile)
    (grid_size tile_size : Nat) (t : Tile) (ht : t ∈ tiles)
    (hparts : 3 ≤ (splitOnUnderscore t.stem).length)
    (hbad : pythonInt ((splitOnUnderscore t.stem).getD 2 []) = none) :
    (∃ e, MosaicAssembler.assemble tiles grid_size tile_size = .error e) ∧
    MosaicAssembler.imageryOutput tiles grid_size tile_size = none := by
  obtain ⟨e, he⟩ := go_raises_of_mem tile_size grid_size t hparts hbad tiles ht
    (MosaicAssembler.blankCanvas tile_size grid_size) 0
  refine ⟨⟨e, ?_⟩, ?_⟩
  · unfold MosaicAssembler.assemble
    rw [he]
  · unfold MosaicAssembler.imageryOutput MosaicAssembler.assemble
    rw [he]

/-- Witness for C10: a single tile named `t_l_x`; `int("x")` raises and
the imagery output is omitted. -/
theorem c10_unparseable_index_raises_witness :
    (∃ e, MosaicAssembler.assemble
        [⟨['t', '_', 'l', '_', 'x'], ⟨256, 256, fun _ _ => blackRGB⟩⟩]
        4 256 = .error e) ∧
    MosaicAssembler.imageryOutput
        [⟨['t', '_', 'l', '_', 'x'], ⟨256, 256, fun _ _ => blackRGB⟩⟩]
        4 256 = none :=
  c10_unparseable_index_raises
    [⟨['t', '_', 'l', '_', 'x'], ⟨256, 256, fun _ _ => blackRGB⟩⟩] 4 256
    ⟨['t', '_', 'l', '_', 'x'], ⟨256, 256, fun _ _ => blackRGB⟩⟩
    (List.Mem.head _) (by decide) (by decide)

/-- A paste never changes pixels outside the pasted rectangle. -/
lemma paste_pix_outside (cv : Canvas) (img : TileImage) (x0 y0 x y : Int)
    (h : x < x0 ∨ x0 + (img.width : Int) ≤ x ∨
         y < y0 ∨ y0 + (img.height : Int) ≤ y) :
    (cv.paste img x0 y0).pix x y = cv.pix x y := by
  simp only [Canvas.paste]
  rw [if_neg]
  rintro ⟨-, -, -, -, h5, h6, h7, h8⟩
  omega

/-- A tile whose identifier resolves to an in-bounds destination is
pasted there and counted. -/
lemma placeTile_places (tile_size grid_size : Nat) (t : Tile) (r c : Int)
    (h : MosaicAssembler.placedDest grid_size t = some (r, c))
    (cv : Canvas) (p : Nat) :
    MosaicAssembler.placeTile tile_size grid_size cv p t =
      .ok (cv.paste t.image (c * (tile_size : Int)) (r * (tile_size : Int)),
           p + 1) := by
  simp only [MosaicAssembler.placedDest] at h
  simp only [MosaicAssembler.placeTile]
  split at h
  · rename_i hparts
    rw [if_pos hparts]
    rcases hint : pythonInt ((splitOnUnderscore t.stem).getD 2 []) with - | tile_id
    · rw [hint] at h
      simp at h
    · rw [hint] at h
      simp only at h
      simp only [hint, h]
  · simp at h

/-- A tile with a malformed identifier (fewer than three parts) is
skipped: canvas and counter unchanged. -/
lemma placeTile_skips_malformed (tile_size grid_size : Nat) (t : Tile)
    (h : (splitOnUnderscore t.stem).length < 3) (cv : Canvas) (p : Nat) :
    MosaicAssembler.placeTile tile_size grid_size cv p t = .ok (cv, p) := by
  simp only [MosaicAssembler.placeTile]
  rw [if_neg (by omega)]

/-- The stitching loop distributes over list append. -/
lemma go_append (tile_size grid_size : Nat) :
    ∀ (l₁ l₂ : List Tile) (cv : Canvas) (p : Nat),
      MosaicAssembler.go tile_size grid_size (l₁ ++ l₂) cv p =
        match MosaicAssembler.go tile_size grid_size l₁ cv p with
        | .error e => .error e
        | .ok (cv', p') => MosaicAssembler.go tile_size grid_size l₂ cv' p'
  | [], l₂, cv, p => rfl
  | t :: rest, l₂, cv, p => by
    simp only [List.cons_append, MosaicAssembler.go]
    rcases hres : MosaicAssembler.placeTile tile_size grid_size cv p t with
      e | ⟨c₂, p₂⟩ <;> simp only [hres]
    exact go_append tile_size grid_size rest l₂ c₂ p₂

/-- Over a list of tiles that all resolve to in-bounds destinations
distinct from the cell `(row, col)`, with images of the common tile
side, the loop places every tile and leaves the pixel block of
`(row, col)` untouched. -/
lemma go_places_away (tile_size grid_size : Nat) (row col : Int) :
    ∀ (l : List Tile),
      (∀ t ∈ l, t.image.width = tile_size ∧ t.image.height = tile_size ∧
        ∃ d, MosaicAssembler.placedDest grid_size t = some d ∧
          d ≠ (row, col)) →
      ∀ (cv : Canvas) (p : Nat),
      ∃ cv', MosaicAssembler.go tile_size grid_size l cv p =
          .ok (cv', p + l.length) ∧
        ∀ x y : Int, col * tile_size ≤ x → x < (col + 1) * tile_size →
          row * tile_size ≤ y → y < (row + 1) * tile_size →
          cv'.pix x y = cv.pix x y
  | [], _, cv, p =>
    ⟨cv, by simp [MosaicAssembler.go], fun _ _ _ _ _ _ => rfl⟩
  | t :: rest, hl, cv, p => by
    obtain ⟨hw, hh, ⟨r, c⟩, hd, hne⟩ := hl t (List.mem_cons_self t rest)
    have hplace := placeTile_places tile_size grid_size t r c hd cv p
    obtain ⟨cv', he, hpix⟩ := go_places_away tile_size grid_size row col rest
      (fun t' ht' => hl t' (List.mem_cons_of_mem t ht'))
      (cv.paste t.image (c * (tile_size : Int)) (r * (tile_size : Int)))
      (p + 1)
    have hlen : p + 1 + rest.length = p + (t :: rest).length := by
      simp only [List.length_cons]
      omega
    rw [hlen] at he
    refine ⟨cv', ?_, ?_⟩
    · simp only [MosaicAssembler.go, hplace]
      exact he
    · intro x y hx1 hx2 hy1 hy2
      rw [hpix x y hx1 hx2 hy1 hy2]
      apply paste_pix_outside
      rw [hw, hh]
      have hrc : r ≠ row ∨ c ≠ col := by
        by_contra hcon
        push_neg at hcon
        exact hne (by rw [hcon.1, hcon.2])
      have hts : (0 : Int) ≤ (tile_size : Int) := Int.natCast_nonneg _
      rcases hrc with hr | hc
      · rcases lt_or_gt_of_ne hr with hlt | hgt
        · right; right; right
          have h1 : (r + 1) * (tile_size : Int) ≤ row * tile_size :=
            mul_le_mul_of_nonneg_right (by omega) hts
          nlinarith
        · right; right; left
          have h1 : (row + 1) * (tile_size : Int) ≤ r * tile_size :=
            mul_le_mul_of_nonneg_right (by omega) hts
          nlinarith
      · rcases lt_or_gt_of_ne hc with hlt | hgt
        · right; left
          have h1 : (c + 1) * (tile_size : Int) ≤ col * tile_size :=
            mul_le_mul_of_nonneg_right (by omega) hts
          nlinarith
        · left
          have h1 : (col + 1) * (tile_size : Int) ≤ c * tile_size :=
            mul_le_mul_of_nonneg_right (by omega) hts
          nlinarith

/-- C5: if exactly one tile of the set has a malformed identifier
(fewer than three underscore-delimited parts) and every other tile maps
to an in-bounds destination (all away from the cell `(row, col)` that
the malformed tile would have occupied, with images of the common tile
side), then `assemble` returns `placed_count = total_count - 1` and the
pixel block of that cell is left at the background fill color
(black). -/
theorem c5_malformed_tile_tolerated
    (pre post : List Tile) (bad : Tile) (grid_size tile_size : Nat)
    (row col : Int)
    (_hrow0 : 0 ≤ row) (_hrowg : row < (grid_size : Int))
    (_hcol0 : 0 ≤ col) (_hcolg : col < (grid_size : Int))
    (hbad : (splitOnUnderscore bad.stem).length < 3)
    (hgood : ∀ t ∈ pre ++ post,
      t.image.width = tile_size ∧ t.image.height = tile_size ∧
      ∃ d, MosaicAssembler.placedDest grid_size t = some d ∧
        d ≠ (row, col)) :
    ∃ canvas,
      MosaicAssembler.assemble (pre ++ bad :: post) grid_size tile_size =
        .ok (canvas, (pre ++ bad :: post).length - 1,
             (pre ++ bad :: post).length) ∧
      ∀ x y : Int, col * tile_size ≤ x → x < (col + 1) * tile_size →
        row * tile_size ≤ y → y < (row + 1) * tile_size →
        canvas.pix x y = blackRGB := by
  have hpre : ∀ t ∈ pre, t.image.width = tile_size ∧
      t.image.height = tile_size ∧
      ∃ d, MosaicAssembler.placedDest grid_size t = some d ∧
        d ≠ (row, col) :=
    fun t ht => hgood t (List.mem_append_left _ ht)
  have hpost : ∀ t ∈ post, t.image.width = tile_size ∧
      t.image.height = tile_size ∧
      ∃ d, MosaicAssembler.placedDest grid_size t = some d ∧
        d ≠ (row, col) :=
    fun t ht => hgood t (List.mem_append_right _ ht)
  obtain ⟨cv₁, he₁, hp₁⟩ := go_places_away tile_size grid_size row col pre hpre
    (MosaicAssembler.blankCanvas tile_size grid_size) 0
  obtain ⟨cv₂, he₂, hp₂⟩ := go_places_away tile_size grid_size row col post
    hpost cv₁ (0 + pre.length)
  have hgo : MosaicAssembler.go tile_size grid_size (pre ++ bad :: post)
      (MosaicAssembler.blankCanvas tile_size grid_size) 0 =
      .ok (cv₂, 0 + pre.length + post.length) := by
    rw [go_append, he₁]
    simp only [MosaicAssembler.go,
      placeTile_skips_malformed tile_size grid_size bad hbad cv₁
        (0 + pre.length)]
    rw [he₂]
  refine ⟨cv₂, ?_, ?_⟩
  · unfold MosaicAssembler.assemble
    rw [hgo]
    have hL1 : 0 + pre.length + post.length =
        (pre ++ bad :: post).length - 1 := by
      simp only [List.length_append, List.length_cons]
      omega
    rw [hL1]
  · intro x y hx1 hx2 hy1 hy2
    rw [hp₂ x y hx1 hx2 hy1 hy2, hp₁ x y hx1 hx2 hy1 hy2]
    rfl

/-- Witness for C5: grid 2, tile side 1, one well-formed tile `a_b_0`
placed at destination `(0, 0)` and one malformed tile `x`; the cell
`(1, 1)` stays black and the counts are `1` of `2`. -/
theorem c5_malformed_tile_tolerated_witness :
    ∃ canvas,
      MosaicAssembler.assemble
        ([⟨['a', '_', 'b', '_', '0'], ⟨1, 1, fun _ _ => ⟨9, 9, 9⟩⟩⟩] ++
          ⟨['x'], ⟨1, 1, fun _ _ => ⟨9, 9, 9⟩⟩⟩ :: []) 2 1 =
        .ok (canvas, 1, 2) ∧
      ∀ x y : Int, (1 : Int) * ((1 : Nat) : Int) ≤ x →
        x < ((1 : Int) + 1) * ((1 : Nat) : Int) →
        (1 : Int) * ((1 : Nat) : Int) ≤ y →
        y < ((1 : Int) + 1) * ((1 : Nat) : Int) →
        canvas.pix x y = blackRGB := by
  refine c5_malformed_tile_tolerated
    [⟨['a', '_', 'b', '_', '0'], ⟨1, 1, fun _ _ => ⟨9, 9, 9⟩⟩⟩] []
    ⟨['x'], ⟨1, 1, fun _ _ => ⟨9, 9, 9⟩⟩⟩ 2 1 1 1
    (by decide) (by decide) (by decide) (by decide) (by decide) ?_
  intro t ht
  simp only [List.append_nil, List.mem_singleton] at ht
  subst ht
  exact ⟨rfl, rfl, (0, 0), by decide, by decide⟩
